import Mathlib

/-!
Verification development for the normalizing expression-construction core
in pkg/sql/opt/norm/factory.go (CockroachDB query optimizer).

The Go source is shallowly embedded: pure helper functions become Lean
functions; the factory's mutable fields become explicit record state that
is threaded through the operations; Go panics become explicit error
constructors.  Collaborator code that is not part of this snapshot (the
memo interner, the optgen-generated constructor wrappers, the scalar
evaluator, errorutil.ShouldCatch) is modelled from the specification and
marked as such in its doc comment.
-/

set_option autoImplicit false

/-- Rule names consulted by the factory's match-veto callback.  Only the
always-on SimplifyZeroCardinalityGroup rule is distinguished; all other
rules are represented by an index. -/
inductive RuleName where
  | simplifyZeroCardinalityGroup
  | otherRule (n : Nat)
deriving DecidableEq

/-- MatchedRuleFunc: the match-veto callback type.  Returning false skips
the rule. -/
def MatchedRuleFunc : Type := RuleName → Bool

/-- Relational operator kinds (a representative subset of the closed
enumeration in pkg/sql/opt). -/
inductive Op where
  | valuesOp
  | scanOp
  | selectOp
  | limitOp
  | innerJoinOp
deriving DecidableEq

/-- Modelled from the spec: props.Cardinality, the row-count range
[min, max] cached in a relational group's logical properties (the
logical-properties provider is an external collaborator). -/
structure Cardinality where
  min : Nat
  max : Nat
deriving DecidableEq

/-- Modelled from the spec: Cardinality.IsZero reports a cardinality of
exactly the range [0,0]. -/
def Cardinality.isZero (c : Cardinality) : Bool :=
  c.min == 0 && c.max == 0

/-- The slice of a relational group's cached logical properties consumed
by onConstructRelational: cardinality, whether the volatility set is
leakproof, and the output columns. -/
structure RelProps where
  cardinality : Cardinality
  isLeakproof : Bool
  outputCols : List Nat
deriving DecidableEq

/-- A relational expression as seen by the finishing hook: its operator
kind together with its cached logical properties (rel.Relational()). -/
structure RelNode where
  op : Op
  props : RelProps
deriving DecidableEq

/-- The factory state relevant to the claims: the installed match-veto
callback (nil in Go is `none` here) and the shared constructor stack
depth counter.  The applied-rule notification callback is effect-only
(it never changes a construction result) and is not modelled. -/
structure Factory where
  matchedRule : Option MatchedRuleFunc := none
  constructorStackDepth : Nat := 0

/-- Modelled from the spec: CustomFuncs.ConstructEmptyValues (defined in
the norm package's custom-function file, not part of this snapshot)
builds an empty values-producer exposing the given output columns. -/
def ConstructEmptyValues (cols : List Nat) : RelNode :=
  { op := Op.valuesOp
    props :=
      { cardinality := ⟨0, 0⟩
        isLeakproof := true
        outputCols := cols } }

/-- The guard `f.matchedRule == nil || f.matchedRule(opt.SimplifyZeroCardinalityGroup)`
from onConstructRelational. -/
def matchVetoAllows (f : Factory) : Bool :=
  match f.matchedRule with
  | none => true
  | some matchedRule => matchedRule RuleName.simplifyZeroCardinalityGroup

/-- Factory.onConstructRelational: the finishing hook run by every
relational constructor.  It applies the built-in
SimplifyZeroCardinalityGroup rule: a non-Values node whose cardinality is
[0,0] and whose volatility set is leakproof is replaced by an empty
values expression over the node's output columns, unless the match-veto
callback rejects the rule. -/
def onConstructRelational (f : Factory) (rel : RelNode) : RelNode :=
  if rel.op ≠ Op.valuesOp then
    let relational := rel.props
    if relational.cardinality.isZero && relational.isLeakproof then
      if matchVetoAllows f then
        ConstructEmptyValues relational.outputCols
      else rel
    else rel
  else rel

/-! ### Depth guard (maxConstructorStackDepth) -/

/-- maxConstructorStackDepth from factory.go. -/
def maxConstructorStackDepth : Nat := 10000

/-- Outcome of Factory.onMaxConstructorStackDepthExceeded: either a panic
with an assertion-failure error (test builds) or a report sent to the
observability sink (release builds). -/
inductive DepthOutcome where
  | panicAssertion (msg : String)
  | reportToSink (msg : String)
deriving DecidableEq

/-- Factory.onMaxConstructorStackDepthExceeded, parameterized by
buildutil.CrdbTestBuild.  In test builds it panics with the assertion
error; in release builds it reports the error to Sentry and returns. -/
def onMaxConstructorStackDepthExceeded (crdbTestBuild : Bool) : DepthOutcome :=
  let err := "optimizer factory constructor call stack exceeded max depth"
  if crdbTestBuild then
    DepthOutcome.panicAssertion err
  else
    DepthOutcome.reportToSink err

/-- Result of one guarded constructor call: a constructed node, or a
propagated panic. -/
inductive ConstructOutcome where
  | ok (rel : RelNode)
  | panicked (msg : String)
deriving DecidableEq

/-- Modelled from the spec: the optgen-generated constructor wrapper
(factory.og.go, not part of this snapshot).  Every constructor increments
the shared stack-depth counter; once the counter exceeds
maxConstructorStackDepth, no further normalization rules are applied for
the current call tree and onMaxConstructorStackDepthExceeded is invoked,
so that in release builds the raw (possibly under-normalized) node is
returned without error. -/
def constructWithDepthGuard (crdbTestBuild : Bool) (depth : Nat)
    (applyNormalizationRules : RelNode → RelNode) (raw : RelNode) : ConstructOutcome :=
  if maxConstructorStackDepth < depth then
    match onMaxConstructorStackDepthExceeded crdbTestBuild with
    | DepthOutcome.panicAssertion msg => ConstructOutcome.panicked msg
    | DepthOutcome.reportToSink _ => ConstructOutcome.ok raw
  else
    ConstructOutcome.ok (applyNormalizationRules raw)

/-! ### Memo interning (structural deduplication into groups) -/

/-- Modelled from the spec: the structural key under which the memo
interns an expression — operator kind, child group ids, and private
data (the memo package is not part of this snapshot). -/
structure ExprShape where
  op : Nat
  children : List Nat
  privData : Nat
deriving DecidableEq

/-- Linear search for a structurally equal group; returns its group id
(its index in the memo's group list). -/
def findGroup (gs : List ExprShape) (k : ExprShape) : Option Nat :=
  match gs with
  | [] => none
  | g :: rest =>
    if g = k then some 0
    else (findGroup rest k).map (· + 1)

/-- Modelled from the spec: interning an expression into the memo.  If a
structurally equal group exists its id is returned and the memo is
unchanged; otherwise a new group is appended. -/
def internGroup (gs : List ExprShape) (k : ExprShape) : List ExprShape × Nat :=
  match findGroup gs k with
  | some i => (gs, i)
  | none => (gs ++ [k], gs.length)

/-! ### Scalar expressions, constants, and filters -/

/-- Static types (types.T): a representative subset plus tuple types
built by types.MakeTuple. -/
inductive Ty where
  | bool
  | int
  | string
  | unknown
  | tuple (elems : List Ty)

/-- Datums (tree.Datum): the concrete values produced by the scalar
evaluator.  tree.DNull is the null singleton. -/
inductive Datum where
  | dNull
  | dBool (b : Bool)
  | dInt (n : Int)
  | dString (s : String)
deriving DecidableEq

/-- tree.Datum.ResolvedType for the modelled datums (DNull resolves to
types.Unknown). -/
def Datum.resolvedType : Datum → Ty
  | Datum.dNull => Ty.unknown
  | Datum.dBool _ => Ty.bool
  | Datum.dInt _ => Ty.int
  | Datum.dString _ => Ty.string

/-- Expression trees as walked by the copy-and-replace traversal: the
scalar node kinds used by the convenience constructors, plus a generic
relational node (operator tag, children, private data). -/
inductive SExpr where
  | placeholder (id : Nat) (ty : Ty)
  | const (d : Datum) (ty : Ty)
  | null (ty : Ty)
  | tru
  | fals
  | varRef (col : Nat)
  | eq (left : SExpr) (right : SExpr)
  | inOp (left : SExpr) (right : SExpr)
  | tuple (elems : List SExpr) (ty : Ty)
  | filtersItem (condition : SExpr)
  | relational (op : Nat) (children : List SExpr) (privData : Nat)

/-- Factory.ConstructConstVal: constructs a constant operator from a
datum.  DNull maps to the Null operator carrying the supplied static
type; DBool true/false map to the process-wide True/False singletons;
every other datum maps to a generic Const node. -/
def ConstructConstVal (d : Datum) (t : Ty) : SExpr :=
  match d with
  | Datum.dNull => SExpr.null t
  | Datum.dBool true => SExpr.tru
  | Datum.dBool false => SExpr.fals
  | d => SExpr.const d t

/-- Factory.ConstructConstFilter: constrains a column to a set of
constant values — one value yields an equality filter, several yield an
IN filter against a tuple whose element types are each value's resolved
type in order. -/
def ConstructConstFilter (col : Nat) (values : List Datum) : SExpr :=
  match values with
  | [v] =>
    SExpr.filtersItem (SExpr.eq (SExpr.varRef col)
      (ConstructConstVal v v.resolvedType))
  | vs =>
    let elems := vs.map (fun v => ConstructConstVal v v.resolvedType)
    let elemTypes := vs.map (fun v => v.resolvedType)
    SExpr.filtersItem (SExpr.inOp (SExpr.varRef col)
      (SExpr.tuple elems (Ty.tuple elemTypes)))

/-! ### Copy-and-replace traversal -/

mutual
/-- Factory.CopyWithoutAssigningPlaceholders: the no-op-substitution deep
copy, i.e. CopyAndReplaceDefault applied with itself as the callback.
The default copy reconstructs each node from recursively copied
children (the recursive structure of CopyAndReplaceDefault is modelled
from the spec, as factory.og.go is not part of this snapshot). -/
def CopyWithoutAssigningPlaceholders : SExpr → SExpr
  | SExpr.placeholder id ty => SExpr.placeholder id ty
  | SExpr.const d t => SExpr.const d t
  | SExpr.null t => SExpr.null t
  | SExpr.tru => SExpr.tru
  | SExpr.fals => SExpr.fals
  | SExpr.varRef c => SExpr.varRef c
  | SExpr.eq a b =>
    SExpr.eq (CopyWithoutAssigningPlaceholders a) (CopyWithoutAssigningPlaceholders b)
  | SExpr.inOp a b =>
    SExpr.inOp (CopyWithoutAssigningPlaceholders a) (CopyWithoutAssigningPlaceholders b)
  | SExpr.tuple es t => SExpr.tuple (copyWithoutAssigningList es) t
  | SExpr.filtersItem c => SExpr.filtersItem (CopyWithoutAssigningPlaceholders c)
  | SExpr.relational op cs p => SExpr.relational op (copyWithoutAssigningList cs) p

/-- Child-list traversal of the no-op-substitution copy. -/
def copyWithoutAssigningList : List SExpr → List SExpr
  | [] => []
  | e :: es => CopyWithoutAssigningPlaceholders e :: copyWithoutAssigningList es
end

/-- Panic values that can unwind out of construction code: assertion
failures (errors.AssertionFailedf) and scalar-evaluation errors
(the `panic(err)` in AssignPlaceholders's replace callback). -/
inductive PanicVal where
  | assertionFailed (msg : String)
  | evalError (msg : String)
deriving DecidableEq

/-- Modelled from the spec: errorutil.ShouldCatch (not part of this
snapshot) as used in AssignPlaceholders — an evaluation-style error is
caught and turned into a returned error; any other panic value is
re-raised. -/
def shouldCatch : PanicVal → Option String
  | PanicVal.evalError msg => some msg
  | PanicVal.assertionFailed _ => none

/-- The slice of the memo's state consumed by CopyAndReplace: interned
groups, the scalar rank counter, the metadata table (identifier paired
with an embedded scalar expression), and the designated root with its
required physical properties (the properties are left abstract as a
tag).  The memo package is not part of this snapshot, so this state and
the operations on it are modelled from the spec. -/
structure MemoState where
  groups : List ExprShape := []
  nextRank : Nat := 0
  metadata : List (Nat × SExpr) := []
  root : Option (SExpr × Nat) := none

/-- Modelled from the spec: Memo.IsEmpty — a memo with no groups, no
metadata and no root. -/
def MemoState.isEmpty (m : MemoState) : Bool :=
  m.groups.isEmpty && m.metadata.isEmpty && m.root.isNone

/-- Modelled from the spec: Metadata.CopyFrom — copies every metadata
entry preserving its identifier, routing the embedded scalar expression
through the supplied copy function. -/
def metadataCopyFrom (src : List (Nat × SExpr)) (copyScalar : SExpr → SExpr) :
    List (Nat × SExpr) :=
  src.map (fun p => (p.1, copyScalar p.2))

/-- The destination memo state just before the substitution callback is
invoked on the source root: the scalar rank counter seeded from the
source memo (Memo.CopyNextRankFrom) and the metadata copied from the
source through the no-op-substitution copy. -/
def seedMemo (mem fromMemo : MemoState) : MemoState :=
  { mem with
    nextRank := fromMemo.nextRank
    metadata := metadataCopyFrom fromMemo.metadata CopyWithoutAssigningPlaceholders }

/-- ReplaceFunc as used by CopyAndReplace, threading the destination
memo state and able to unwind with a panic. -/
def ReplaceFn : Type := MemoState → SExpr → Except PanicVal (MemoState × SExpr)

/-- Factory.CopyAndReplace: requires an empty destination memo (fatal
assertion otherwise), seeds the scalar rank counter past the source's,
copies all metadata through the no-op-substitution copy, invokes the
replace callback on the source root, and installs the result as the
destination memo's root with the supplied required properties. -/
def CopyAndReplace (mem : MemoState) (fromRoot : SExpr) (fromMemo : MemoState)
    (fromProps : Nat) (replace : ReplaceFn) : Except PanicVal MemoState :=
  if !mem.isEmpty then
    Except.error (PanicVal.assertionFailed "destination memo must be empty")
  else
    let mem1 := { mem with nextRank := fromMemo.nextRank }
    let mem2 := { mem1 with
      metadata := metadataCopyFrom fromMemo.metadata CopyWithoutAssigningPlaceholders }
    match replace mem2 fromRoot with
    | Except.error p => Except.error p
    | Except.ok (mem3, toExpr) =>
      Except.ok { mem3 with root := some (toExpr, fromProps) }

/-! ### Placeholder assignment -/

mutual
/-- The replace callback built by AssignPlaceholders, as a pure tree
transform: a Placeholder leaf is evaluated through the external
evaluator (panicking with the evaluation error on failure) and replaced
by ConstructConstVal of the resulting datum at the placeholder's static
type; every other node falls through to the default copy. -/
def assignRepl (evalFn : Nat → Except String Datum) : SExpr → Except PanicVal SExpr
  | SExpr.placeholder id ty =>
    match evalFn id with
    | Except.error msg => Except.error (PanicVal.evalError msg)
    | Except.ok d => Except.ok (ConstructConstVal d ty)
  | SExpr.const d t => Except.ok (SExpr.const d t)
  | SExpr.null t => Except.ok (SExpr.null t)
  | SExpr.tru => Except.ok SExpr.tru
  | SExpr.fals => Except.ok SExpr.fals
  | SExpr.varRef c => Except.ok (SExpr.varRef c)
  | SExpr.eq a b =>
    match assignRepl evalFn a with
    | Except.error p => Except.error p
    | Except.ok a' =>
      match assignRepl evalFn b with
      | Except.error p => Except.error p
      | Except.ok b' => Except.ok (SExpr.eq a' b')
  | SExpr.inOp a b =>
    match assignRepl evalFn a with
    | Except.error p => Except.error p
    | Except.ok a' =>
      match assignRepl evalFn b with
      | Except.error p => Except.error p
      | Except.ok b' => Except.ok (SExpr.inOp a' b')
  | SExpr.tuple es t =>
    match assignReplList evalFn es with
    | Except.error p => Except.error p
    | Except.ok es' => Except.ok (SExpr.tuple es' t)
  | SExpr.filtersItem c =>
    match assignRepl evalFn c with
    | Except.error p => Except.error p
    | Except.ok c' => Except.ok (SExpr.filtersItem c')
  | SExpr.relational op cs p =>
    match assignReplList evalFn cs with
    | Except.error q => Except.error q
    | Except.ok cs' => Except.ok (SExpr.relational op cs' p)

/-- Child-list traversal of the placeholder-assigning copy. -/
def assignReplList (evalFn : Nat → Except String Datum) :
    List SExpr → Except PanicVal (List SExpr)
  | [] => Except.ok []
  | e :: es =>
    match assignRepl evalFn e with
    | Except.error p => Except.error p
    | Except.ok e' =>
      match assignReplList evalFn es with
      | Except.error p => Except.error p
      | Except.ok es' => Except.ok (e' :: es')
end

mutual
/-- Whether every Placeholder reachable in the expression has a
successfully evaluating bound value. -/
def allOkB (evalFn : Nat → Except String Datum) : SExpr → Bool
  | SExpr.placeholder id _ =>
    match evalFn id with
    | Except.ok _ => true
    | Except.error _ => false
  | SExpr.const _ _ => true
  | SExpr.null _ => true
  | SExpr.tru => true
  | SExpr.fals => true
  | SExpr.varRef _ => true
  | SExpr.eq a b => allOkB evalFn a && allOkB evalFn b
  | SExpr.inOp a b => allOkB evalFn a && allOkB evalFn b
  | SExpr.tuple es _ => allOkBList evalFn es
  | SExpr.filtersItem c => allOkB evalFn c
  | SExpr.relational _ cs _ => allOkBList evalFn cs

/-- Child-list form of allOkB. -/
def allOkBList (evalFn : Nat → Except String Datum) : List SExpr → Bool
  | [] => true
  | e :: es => allOkB evalFn e && allOkBList evalFn es
end

/-- Whether a node is a Placeholder leaf. -/
def isPlaceholder : SExpr → Bool
  | SExpr.placeholder _ _ => true
  | _ => false

/-- One layer of CopyAndReplaceDefault, parameterized by the recursive
calls: reconstruct the same node kind from children produced by the
callback.  Used to state that non-Placeholder nodes fall through to the
default copy behavior. -/
def copyDefaultStep (fn : SExpr → Except PanicVal SExpr)
    (fnL : List SExpr → Except PanicVal (List SExpr)) : SExpr → Except PanicVal SExpr
  | SExpr.placeholder id ty => Except.ok (SExpr.placeholder id ty)
  | SExpr.const d t => Except.ok (SExpr.const d t)
  | SExpr.null t => Except.ok (SExpr.null t)
  | SExpr.tru => Except.ok SExpr.tru
  | SExpr.fals => Except.ok SExpr.fals
  | SExpr.varRef c => Except.ok (SExpr.varRef c)
  | SExpr.eq a b =>
    match fn a with
    | Except.error p => Except.error p
    | Except.ok a' =>
      match fn b with
      | Except.error p => Except.error p
      | Except.ok b' => Except.ok (SExpr.eq a' b')
  | SExpr.inOp a b =>
    match fn a with
    | Except.error p => Except.error p
    | Except.ok a' =>
      match fn b with
      | Except.error p => Except.error p
      | Except.ok b' => Except.ok (SExpr.inOp a' b')
  | SExpr.tuple es t =>
    match fnL es with
    | Except.error p => Except.error p
    | Except.ok es' => Except.ok (SExpr.tuple es' t)
  | SExpr.filtersItem c =>
    match fn c with
    | Except.error p => Except.error p
    | Except.ok c' => Except.ok (SExpr.filtersItem c')
  | SExpr.relational op cs p =>
    match fnL cs with
    | Except.error q => Except.error q
    | Except.ok cs' => Except.ok (SExpr.relational op cs' p)

/-- The replace callback of AssignPlaceholders in the stateful ReplaceFn
form expected by CopyAndReplace (the tree transform itself does not
touch memo state). -/
def assignReplaceFn (evalFn : Nat → Except String Datum) : ReplaceFn :=
  fun m e =>
    match assignRepl evalFn e with
    | Except.error p => Except.error p
    | Except.ok e' => Except.ok (m, e')

/-- Observable outcome of AssignPlaceholders: a normal return with the
built memo (err = nil), a normal return of a caught error (err ≠ nil),
or a re-raised panic. -/
inductive AssignResult where
  | ok (m : MemoState)
  | caughtErr (msg : String)
  | panicked (pv : PanicVal)

/-- The deferred recover boundary at the top of AssignPlaceholders: a
caught panic becomes a returned error, anything ShouldCatch rejects is
re-raised. -/
def recoverBoundary (res : Except PanicVal MemoState) : AssignResult :=
  match res with
  | Except.ok m => AssignResult.ok m
  | Except.error pv =>
    match shouldCatch pv with
    | some e => AssignResult.caughtErr e
    | none => AssignResult.panicked pv

/-- Factory.AssignPlaceholders: copies the source memo into this
factory's (empty) memo while replacing every Placeholder by its
evaluated constant, all under the single recover boundary. -/
def AssignPlaceholders (mem : MemoState) (fromMemo : MemoState)
    (evalFn : Nat → Except String Datum) : AssignResult :=
  match fromMemo.root with
  | none => AssignResult.panicked (PanicVal.assertionFailed "source memo has no root")
  | some (r, p) =>
    recoverBoundary (CopyAndReplace mem r fromMemo p (assignReplaceFn evalFn))

/-! ### Rule notification and disable control -/

/-- Factory.NotifyOnMatchedRule: installs (or clears) the match-veto
callback. -/
def NotifyOnMatchedRule (f : Factory) (matchedRule : Option MatchedRuleFunc) : Factory :=
  { f with matchedRule := matchedRule }

/-- The reject-all veto installed by DisableOptimizations. -/
def rejectAllVeto : MatchedRuleFunc := fun _ => false

/-- Factory.DisableOptimizations: installs a match-veto callback that
rejects every rule. -/
def DisableOptimizations (f : Factory) : Factory :=
  NotifyOnMatchedRule f (some (fun _ => false))

/-- Factory.DisableOptimizationsTemporarily: saves the current match-veto
callback, installs the reject-all veto, runs fn, and restores the saved
callback after fn returns.  fn is modelled as a state transformer that
either returns normally or unwinds with a panic; on a panic the
restoration assignment is never reached (it is not in a deferred
handler), so the state fn left behind propagates unchanged. -/
def DisableOptimizationsTemporarily (f : Factory)
    (fn : Factory → Factory × Option PanicVal) : Factory × Option PanicVal :=
  let originalMatchedRule := f.matchedRule
  match fn (DisableOptimizations f) with
  | (f2, some pv) => (f2, some pv)
  | (f2, none) => ({ f2 with matchedRule := originalMatchedRule }, none)

theorem findGroup_eq_none_iff (gs : List ExprShape) (k : ExprShape) :
    findGroup gs k = none ↔ k ∉ gs := by
  induction gs with
  | nil => simp [findGroup]
  | cons g rest ih =>
    by_cases hgk : g = k
    · subst hgk
      simp [findGroup]
    · simp only [findGroup, if_neg hgk, List.mem_cons]
      constructor
      · intro h
        rcases hfind : findGroup rest k with _ | i
        · intro hc
          rcases hc with hc | hc
          · exact hgk hc.symm
          · exact (ih.mp hfind) hc
        · rw [hfind] at h
          simp [Option.map] at h
      · intro h
        have hnk : k ∉ rest := fun hc => h (Or.inr hc)
        rw [ih.mpr hnk]
        rfl

theorem findGroup_append_self (gs : List ExprShape) (k : ExprShape)
    (h : findGroup gs k = none) :
    findGroup (gs ++ [k]) k = some gs.length := by
  induction gs with
  | nil => simp [findGroup]
  | cons g rest ih =>
    have hgk : g ≠ k := by
      intro hc
      subst hc
      simp [findGroup] at h
    have hrest : findGroup rest k = none := by
      simp only [findGroup, if_neg hgk] at h
      rcases hfind : findGroup rest k with _ | i
      · rfl
      · rw [hfind] at h
        simp [Option.map] at h
    simp only [List.cons_append, findGroup, if_neg hgk, List.length_cons]
    rw [List.append_eq, ih hrest]
    rfl

theorem nodup_append_of_findGroup_none (gs : List ExprShape) (k : ExprShape)
    (hnd : gs.Nodup) (h : findGroup gs k = none) :
    (gs ++ [k]).Nodup := by
  have hk : k ∉ gs := (findGroup_eq_none_iff gs k).mp h
  rw [List.nodup_append]
  refine ⟨hnd, List.nodup_singleton k, ?_⟩
  intro a ha hb
  rw [List.mem_singleton] at hb
  subst hb
  exact hk ha

/-- Claim C2: interning is deterministic and preserves the memo's central
invariant — constructing the same shape (operator kind, child groups,
private data) twice yields the same group, adds nothing on the second
construction, and the memo never holds two distinct structurally equal
groups. -/
theorem memo_interning_unique (gs : List ExprShape) (k : ExprShape)
    (hnd : gs.Nodup) :
    (internGroup (internGroup gs k).1 k).2 = (internGroup gs k).2 ∧
    (internGroup (internGroup gs k).1 k).1 = (internGroup gs k).1 ∧
    (internGroup gs k).1.Nodup := by
  rcases hfind : findGroup gs k with _ | i
  · have h2 : findGroup (gs ++ [k]) k = some gs.length :=
      findGroup_append_self gs k hfind
    refine ⟨?_, ?_, ?_⟩
    · simp [internGroup, hfind, h2]
    · simp [internGroup, hfind, h2]
    · simpa [internGroup, hfind] using nodup_append_of_findGroup_none gs k hnd hfind
  · refine ⟨?_, ?_, ?_⟩
    · simp [internGroup, hfind]
    · simp [internGroup, hfind]
    · simpa [internGroup, hfind] using hnd

/-- Witness for C2 at a concrete memo: interning the same shape twice
into a one-group memo yields the same group id both times, leaves the
memo unchanged on the second call, and keeps the groups duplicate-free. -/
theorem memo_interning_unique_witness :
    (internGroup (internGroup [⟨1, [], 0⟩] ⟨2, [0], 7⟩).1 ⟨2, [0], 7⟩).2 =
      (internGroup [⟨1, [], 0⟩] ⟨2, [0], 7⟩).2 ∧
    (internGroup (internGroup [⟨1, [], 0⟩] ⟨2, [0], 7⟩).1 ⟨2, [0], 7⟩).1 =
      (internGroup [⟨1, [], 0⟩] ⟨2, [0], 7⟩).1 ∧
    (internGroup [⟨1, [], 0⟩] ⟨2, [0], 7⟩).1.Nodup :=
  memo_interning_unique [⟨1, [], 0⟩] ⟨2, [0], 7⟩ (by decide)

/-- Claim C1: for a relational node that is not a Values operator, if its
cached logical properties report cardinality exactly [0,0] and a
leakproof volatility set, onConstructRelational returns the empty values
expression over the node's original output columns — unless the
installed match-veto callback rejects SimplifyZeroCardinalityGroup, in
which case the node is returned unchanged; a node that is not leakproof
or whose cardinality is not [0,0] is returned unchanged. -/
theorem onConstructRelational_zero_cardinality (f : Factory) (rel : RelNode)
    (hop : rel.op ≠ Op.valuesOp) :
    (rel.props.cardinality.isZero = true → rel.props.isLeakproof = true →
      (matchVetoAllows f = true →
        onConstructRelational f rel = ConstructEmptyValues rel.props.outputCols) ∧
      (matchVetoAllows f = false → onConstructRelational f rel = rel)) ∧
    ((rel.props.cardinality.isZero = false ∨ rel.props.isLeakproof = false) →
      onConstructRelational f rel = rel) := by
  constructor
  · intro hz hl
    constructor
    · intro hv
      simp [onConstructRelational, hop, hz, hl, hv]
    · intro hv
      simp [onConstructRelational, hop, hz, hl, hv]
  · intro hcase
    rcases hcase with hz | hl
    · simp [onConstructRelational, hop, hz]
    · simp [onConstructRelational, hop, hl]

/-- Witness for C1: a leakproof scan node with cardinality [0,0] and no
installed veto is rewritten to the empty values expression over its
output columns. -/
theorem onConstructRelational_zero_cardinality_witness :
    onConstructRelational { matchedRule := none }
        { op := Op.scanOp
          props := { cardinality := ⟨0, 0⟩, isLeakproof := true, outputCols := [1, 2] } } =
      ConstructEmptyValues [1, 2] :=
  ((onConstructRelational_zero_cardinality { matchedRule := none }
      { op := Op.scanOp
        props := { cardinality := ⟨0, 0⟩, isLeakproof := true, outputCols := [1, 2] } }
      (by decide)).1 rfl rfl).1 rfl

/-- Claim C3: the constructor recursion-depth threshold is exactly
10,000; once the shared stack depth exceeds it, the normalization-rule
function is not applied — in test builds the guard panics with an
assertion failure, while in release builds the raw node is returned
without error; below the threshold the rules run normally. -/
theorem depth_guard_threshold (depth : Nat)
    (rules : RelNode → RelNode) (raw : RelNode)
    (hdeep : maxConstructorStackDepth < depth) :
    maxConstructorStackDepth = 10000 ∧
    (∃ msg, constructWithDepthGuard true depth rules raw = ConstructOutcome.panicked msg) ∧
    constructWithDepthGuard false depth rules raw = ConstructOutcome.ok raw ∧
    (∀ d b, d ≤ maxConstructorStackDepth →
      constructWithDepthGuard b d rules raw = ConstructOutcome.ok (rules raw)) := by
  refine ⟨rfl, ?_, ?_, ?_⟩
  · exact ⟨"optimizer factory constructor call stack exceeded max depth",
      by simp [constructWithDepthGuard, hdeep, onMaxConstructorStackDepthExceeded]⟩
  · simp [constructWithDepthGuard, hdeep, onMaxConstructorStackDepthExceeded]
  · intro d b hd
    simp [constructWithDepthGuard, Nat.not_lt.mpr hd]

/-- Witness for C3 at depth 10,001: the test build panics, the release
build returns the raw node unchanged, and any depth at or below 10,000
still applies the rules. -/
theorem depth_guard_threshold_witness :
    maxConstructorStackDepth = 10000 ∧
    (∃ msg, constructWithDepthGuard true 10001 id
        { op := Op.scanOp
          props := { cardinality := ⟨0, 5⟩, isLeakproof := true, outputCols := [] } } =
        ConstructOutcome.panicked msg) ∧
    constructWithDepthGuard false 10001 id
        { op := Op.scanOp
          props := { cardinality := ⟨0, 5⟩, isLeakproof := true, outputCols := [] } } =
      ConstructOutcome.ok
        { op := Op.scanOp
          props := { cardinality := ⟨0, 5⟩, isLeakproof := true, outputCols := [] } } ∧
    (∀ d b, d ≤ maxConstructorStackDepth →
      constructWithDepthGuard b d id
          { op := Op.scanOp
            props := { cardinality := ⟨0, 5⟩, isLeakproof := true, outputCols := [] } } =
        ConstructOutcome.ok
          { op := Op.scanOp
            props := { cardinality := ⟨0, 5⟩, isLeakproof := true, outputCols := [] } }) :=
  depth_guard_threshold 10001 id
    { op := Op.scanOp
      props := { cardinality := ⟨0, 5⟩, isLeakproof := true, outputCols := [] } }
    (by decide)

mutual
/-- The no-op-substitution copy is the identity: copying without
assigning placeholders reproduces the expression exactly. -/
theorem copyWAP_id : ∀ e : SExpr, CopyWithoutAssigningPlaceholders e = e
  | SExpr.placeholder i ty => by simp [CopyWithoutAssigningPlaceholders]
  | SExpr.const d t => by simp [CopyWithoutAssigningPlaceholders]
  | SExpr.null t => by simp [CopyWithoutAssigningPlaceholders]
  | SExpr.tru => by simp [CopyWithoutAssigningPlaceholders]
  | SExpr.fals => by simp [CopyWithoutAssigningPlaceholders]
  | SExpr.varRef c => by simp [CopyWithoutAssigningPlaceholders]
  | SExpr.eq a b => by
    simp [CopyWithoutAssigningPlaceholders, copyWAP_id a, copyWAP_id b]
  | SExpr.inOp a b => by
    simp [CopyWithoutAssigningPlaceholders, copyWAP_id a, copyWAP_id b]
  | SExpr.tuple es t => by
    simp [CopyWithoutAssigningPlaceholders, copyWAPList_id es]
  | SExpr.filtersItem c => by
    simp [CopyWithoutAssigningPlaceholders, copyWAP_id c]
  | SExpr.relational op cs p => by
    simp [CopyWithoutAssigningPlaceholders, copyWAPList_id cs]

/-- Child-list form of copyWAP_id. -/
theorem copyWAPList_id : ∀ es : List SExpr, copyWithoutAssigningList es = es
  | [] => by simp [copyWithoutAssigningList]
  | e :: es => by
    simp [copyWithoutAssigningList, copyWAP_id e, copyWAPList_id es]
end

/-- Copying metadata through the no-op substitution preserves every
entry, identifiers included. -/
theorem metadataCopyFrom_noop (meta : List (Nat × SExpr)) :
    metadataCopyFrom meta CopyWithoutAssigningPlaceholders = meta := by
  induction meta with
  | nil => rfl
  | cons p rest ih =>
    cases p with
    | mk a e =>
      simp only [metadataCopyFrom, List.map_cons] at ih ⊢
      rw [copyWAP_id e, ih]

mutual
/-- Shape analysis of the placeholder-assigning copy: it either succeeds
(exactly when every reachable placeholder evaluates), or fails with an
evaluation error (exactly when some reachable placeholder fails). -/
theorem assignRepl_shape (evalFn : Nat → Except String Datum) :
    ∀ e : SExpr,
      (∃ e', assignRepl evalFn e = Except.ok e' ∧ allOkB evalFn e = true) ∨
      (∃ msg, assignRepl evalFn e = Except.error (PanicVal.evalError msg) ∧
        allOkB evalFn e = false)
  | SExpr.placeholder i ty => by
    cases hev : evalFn i with
    | ok d =>
      exact Or.inl ⟨ConstructConstVal d ty, by simp [assignRepl, hev],
        by simp [allOkB, hev]⟩
    | error msg =>
      exact Or.inr ⟨msg, by simp [assignRepl, hev], by simp [allOkB, hev]⟩
  | SExpr.const d t =>
    Or.inl ⟨SExpr.const d t, by simp [assignRepl], by simp [allOkB]⟩
  | SExpr.null t => Or.inl ⟨SExpr.null t, by simp [assignRepl], by simp [allOkB]⟩
  | SExpr.tru => Or.inl ⟨SExpr.tru, by simp [assignRepl], by simp [allOkB]⟩
  | SExpr.fals => Or.inl ⟨SExpr.fals, by simp [assignRepl], by simp [allOkB]⟩
  | SExpr.varRef c =>
    Or.inl ⟨SExpr.varRef c, by simp [assignRepl], by simp [allOkB]⟩
  | SExpr.eq a b => by
    rcases assignRepl_shape evalFn a with ⟨a', ha, hoa⟩ | ⟨m, ha, hoa⟩
    · rcases assignRepl_shape evalFn b with ⟨b', hb, hob⟩ | ⟨m, hb, hob⟩
      · exact Or.inl ⟨SExpr.eq a' b', by simp [assignRepl, ha, hb],
          by simp [allOkB, hoa, hob]⟩
      · exact Or.inr ⟨m, by simp [assignRepl, ha, hb], by simp [allOkB, hoa, hob]⟩
    · exact Or.inr ⟨m, by simp [assignRepl, ha], by simp [allOkB, hoa]⟩
  | SExpr.inOp a b => by
    rcases assignRepl_shape evalFn a with ⟨a', ha, hoa⟩ | ⟨m, ha, hoa⟩
    · rcases assignRepl_shape evalFn b with ⟨b', hb, hob⟩ | ⟨m, hb, hob⟩
      · exact Or.inl ⟨SExpr.inOp a' b', by simp [assignRepl, ha, hb],
          by simp [allOkB, hoa, hob]⟩
      · exact Or.inr ⟨m, by simp [assignRepl, ha, hb], by simp [allOkB, hoa, hob]⟩
    · exact Or.inr ⟨m, by simp [assignRepl, ha], by simp [allOkB, hoa]⟩
  | SExpr.tuple es t => by
    rcases assignReplList_shape evalFn es with ⟨es', hes, hoes⟩ | ⟨m, hes, hoes⟩
    · exact Or.inl ⟨SExpr.tuple es' t, by simp [assignRepl, hes],
        by simp [allOkB, hoes]⟩
    · exact Or.inr ⟨m, by simp [assignRepl, hes], by simp [allOkB, hoes]⟩
  | SExpr.filtersItem c => by
    rcases assignRepl_shape evalFn c with ⟨c', hc, hoc⟩ | ⟨m, hc, hoc⟩
    · exact Or.inl ⟨SExpr.filtersItem c', by simp [assignRepl, hc],
        by simp [allOkB, hoc]⟩
    · exact Or.inr ⟨m, by simp [assignRepl, hc], by simp [allOkB, hoc]⟩
  | SExpr.relational op cs p => by
    rcases assignReplList_shape evalFn cs with ⟨cs', hcs, hocs⟩ | ⟨m, hcs, hocs⟩
    · exact Or.inl ⟨SExpr.relational op cs' p, by simp [assignRepl, hcs],
        by simp [allOkB, hocs]⟩
    · exact Or.inr ⟨m, by simp [assignRepl, hcs], by simp [allOkB, hocs]⟩

/-- Child-list form of assignRepl_shape. -/
theorem assignReplList_shape (evalFn : Nat → Except String Datum) :
    ∀ es : List SExpr,
      (∃ es', assignReplList evalFn es = Except.ok es' ∧
        allOkBList evalFn es = true) ∨
      (∃ msg, assignReplList evalFn es = Except.error (PanicVal.evalError msg) ∧
        allOkBList evalFn es = false)
  | [] => Or.inl ⟨[], by simp [assignReplList], by simp [allOkBList]⟩
  | e :: es => by
    rcases assignRepl_shape evalFn e with ⟨e', he, hoe⟩ | ⟨m, he, hoe⟩
    · rcases assignReplList_shape evalFn es with ⟨es', hes, hoes⟩ | ⟨m, hes, hoes⟩
      · exact Or.inl ⟨e' :: es', by simp [assignReplList, he, hes],
          by simp [allOkBList, hoe, hoes]⟩
      · exact Or.inr ⟨m, by simp [assignReplList, he, hes],
          by simp [allOkBList, hoe, hoes]⟩
    · exact Or.inr ⟨m, by simp [assignReplList, he], by simp [allOkBList, hoe]⟩
end

/-- Claim C4: CopyAndReplace signals a fatal assertion failure whenever
the destination memo is non-empty, for every source root, required
properties, and substitution callback; on an empty destination memo the
emptiness check raises no error and the call proceeds to the
seed-and-replace path. -/
theorem copyAndReplace_requires_empty (mem fromMemo : MemoState) (fromRoot : SExpr)
    (props : Nat) (replace : ReplaceFn) :
    (mem.isEmpty = false →
      CopyAndReplace mem fromRoot fromMemo props replace =
        Except.error (PanicVal.assertionFailed "destination memo must be empty")) ∧
    (mem.isEmpty = true →
      CopyAndReplace mem fromRoot fromMemo props replace =
        match replace (seedMemo mem fromMemo) fromRoot with
        | Except.error p => Except.error p
        | Except.ok (mem3, toExpr) =>
          Except.ok { mem3 with root := some (toExpr, props) }) := by
  constructor
  · intro h
    simp [CopyAndReplace, h]
  · intro h
    simp [CopyAndReplace, h, seedMemo]

/-- Witness for C4: copying into a one-group destination memo fails with
the assertion, while the same call on the blank memo succeeds. -/
theorem copyAndReplace_requires_empty_witness :
    CopyAndReplace { groups := [⟨1, [], 0⟩] } SExpr.tru {} 0
        (fun m e => Except.ok (m, e)) =
      Except.error (PanicVal.assertionFailed "destination memo must be empty") ∧
    CopyAndReplace {} SExpr.tru {} 0 (fun m e => Except.ok (m, e)) =
      Except.ok { seedMemo {} {} with root := some (SExpr.tru, 0) } :=
  ⟨(copyAndReplace_requires_empty { groups := [⟨1, [], 0⟩] } {} SExpr.tru 0
      (fun m e => Except.ok (m, e))).1 rfl,
   (copyAndReplace_requires_empty {} {} SExpr.tru 0
      (fun m e => Except.ok (m, e))).2 rfl⟩

/-- Claim C5: on an empty destination memo, CopyAndReplace first seeds
the scalar rank counter past the source memo's and copies all metadata
preserving identifiers through the no-op substitution, then hands the
seeded memo to the substitution callback; the callback's result on the
root becomes the destination memo's root with the supplied required
properties. -/
theorem copyAndReplace_seeds_then_replaces (mem fromMemo : MemoState)
    (fromRoot : SExpr) (props : Nat) (replace : ReplaceFn)
    (hempty : mem.isEmpty = true) :
    (CopyAndReplace mem fromRoot fromMemo props replace =
      match replace (seedMemo mem fromMemo) fromRoot with
      | Except.error p => Except.error p
      | Except.ok (mem3, toExpr) =>
        Except.ok { mem3 with root := some (toExpr, props) }) ∧
    (seedMemo mem fromMemo).nextRank = fromMemo.nextRank ∧
    (seedMemo mem fromMemo).metadata = fromMemo.metadata ∧
    (∀ mem3 toExpr,
      replace (seedMemo mem fromMemo) fromRoot = Except.ok (mem3, toExpr) →
      CopyAndReplace mem fromRoot fromMemo props replace =
        Except.ok { mem3 with root := some (toExpr, props) }) := by
  refine ⟨?_, rfl, ?_, ?_⟩
  · simp [CopyAndReplace, hempty, seedMemo]
  · simp [seedMemo, metadataCopyFrom_noop]
  · intro mem3 toExpr hrep
    simp [CopyAndReplace, hempty, seedMemo] at hrep ⊢
    rw [hrep]

/-- Witness for C5: the seeded memo takes the source's rank counter and
metadata verbatim, and an identity-style callback's result becomes the
root with the supplied properties. -/
theorem copyAndReplace_seeds_then_replaces_witness :
    CopyAndReplace {} SExpr.tru { nextRank := 42, metadata := [(3, SExpr.fals)] } 7
        (fun m e => Except.ok (m, e)) =
      Except.ok { seedMemo {} { nextRank := 42, metadata := [(3, SExpr.fals)] } with
                  root := some (SExpr.tru, 7) } ∧
    (seedMemo {} { nextRank := 42, metadata := [(3, SExpr.fals)] }).nextRank = 42 ∧
    (seedMemo {} { nextRank := 42, metadata := [(3, SExpr.fals)] }).metadata =
      [(3, SExpr.fals)] :=
  ⟨(copyAndReplace_seeds_then_replaces {} { nextRank := 42, metadata := [(3, SExpr.fals)] }
      SExpr.tru 7 (fun m e => Except.ok (m, e)) rfl).2.2.2 _ _ rfl,
   (copyAndReplace_seeds_then_replaces {} { nextRank := 42, metadata := [(3, SExpr.fals)] }
      SExpr.tru 7 (fun m e => Except.ok (m, e)) rfl).2.1,
   (copyAndReplace_seeds_then_replaces {} { nextRank := 42, metadata := [(3, SExpr.fals)] }
      SExpr.tru 7 (fun m e => Except.ok (m, e)) rfl).2.2.1⟩

/-- Claim C6: during AssignPlaceholders, every Placeholder leaf is
replaced by ConstructConstVal of its evaluated datum at the
placeholder's static type — null datums map to the Null-of-type node,
boolean datums to the True/False singletons, all other datums to a
generic Const node — and every non-Placeholder node falls through to
the default copy behavior. -/
theorem assignPlaceholders_const_mapping (evalFn : Nat → Except String Datum) :
    (∀ i ty d, evalFn i = Except.ok d →
      assignRepl evalFn (SExpr.placeholder i ty) =
        Except.ok (ConstructConstVal d ty)) ∧
    (∀ ty, ConstructConstVal Datum.dNull ty = SExpr.null ty) ∧
    (∀ ty, ConstructConstVal (Datum.dBool true) ty = SExpr.tru) ∧
    (∀ ty, ConstructConstVal (Datum.dBool false) ty = SExpr.fals) ∧
    (∀ d ty, d ≠ Datum.dNull → (∀ b, d ≠ Datum.dBool b) →
      ConstructConstVal d ty = SExpr.const d ty) ∧
    (∀ e, isPlaceholder e = false →
      assignRepl evalFn e =
        copyDefaultStep (assignRepl evalFn) (assignReplList evalFn) e) := by
  refine ⟨?_, ?_, ?_, ?_, ?_, ?_⟩
  · intro i ty d hev
    simp [assignRepl, hev]
  · intro ty; rfl
  · intro ty; rfl
  · intro ty; rfl
  · intro d ty hnull hbool
    cases d with
    | dNull => exact absurd rfl hnull
    | dBool b => exact absurd rfl (hbool b)
    | dInt n => rfl
    | dString s => rfl
  · intro e he
    cases e <;> simp_all [isPlaceholder, assignRepl, copyDefaultStep]

/-- Witness for C6: a placeholder bound to the integer 5 becomes the
generic Const node at the placeholder's type, and a non-placeholder
node is copied by the default step. -/
theorem assignPlaceholders_const_mapping_witness :
    assignRepl (fun _ => Except.ok (Datum.dInt 5)) (SExpr.placeholder 0 Ty.int) =
      Except.ok (ConstructConstVal (Datum.dInt 5) Ty.int) ∧
    ConstructConstVal (Datum.dInt 7) Ty.int = SExpr.const (Datum.dInt 7) Ty.int ∧
    assignRepl (fun _ => Except.ok (Datum.dInt 5)) SExpr.tru =
      copyDefaultStep (assignRepl (fun _ => Except.ok (Datum.dInt 5)))
        (assignReplList (fun _ => Except.ok (Datum.dInt 5))) SExpr.tru :=
  ⟨(assignPlaceholders_const_mapping (fun _ => Except.ok (Datum.dInt 5))).1 0 Ty.int
      (Datum.dInt 5) rfl,
   (assignPlaceholders_const_mapping (fun _ => Except.ok (Datum.dInt 5))).2.2.2.2.1
      (Datum.dInt 7) Ty.int (by decide) (by decide),
   (assignPlaceholders_const_mapping (fun _ => Except.ok (Datum.dInt 5))).2.2.2.2.2
      SExpr.tru rfl⟩

/-- Claim C7: AssignPlaceholders returns normally with err = nil when
every placeholder evaluates; a placeholder-evaluation failure is caught
at the single recover boundary and returned as a normal error; and any
panic value ShouldCatch rejects is re-raised by that boundary. -/
theorem assignPlaceholders_error_boundary (mem fromMemo : MemoState)
    (evalFn : Nat → Except String Datum) (r : SExpr) (p : Nat)
    (hroot : fromMemo.root = some (r, p)) (hempty : mem.isEmpty = true) :
    (allOkB evalFn r = true →
      ∃ m, AssignPlaceholders mem fromMemo evalFn = AssignResult.ok m) ∧
    (allOkB evalFn r = false →
      ∃ msg, assignRepl evalFn r = Except.error (PanicVal.evalError msg) ∧
        AssignPlaceholders mem fromMemo evalFn = AssignResult.caughtErr msg) ∧
    (∀ pv, shouldCatch pv = none →
      recoverBoundary (Except.error pv) = AssignResult.panicked pv) := by
  refine ⟨?_, ?_, ?_⟩
  · intro hall
    rcases assignRepl_shape evalFn r with ⟨e', he, _⟩ | ⟨m, _, hfail⟩
    · refine ⟨{ seedMemo mem fromMemo with root := some (e', p) }, ?_⟩
      simp [AssignPlaceholders, hroot, CopyAndReplace, hempty, assignReplaceFn, he,
        recoverBoundary, seedMemo]
    · rw [hall] at hfail
      exact absurd hfail (by simp)
  · intro hfail
    rcases assignRepl_shape evalFn r with ⟨e', _, hok⟩ | ⟨m, he, _⟩
    · rw [hfail] at hok
      exact absurd hok (by simp)
    · refine ⟨m, he, ?_⟩
      simp [AssignPlaceholders, hroot, CopyAndReplace, hempty, assignReplaceFn, he,
        recoverBoundary, shouldCatch]
  · intro pv hpv
    simp [recoverBoundary, hpv]

/-- Witness for C7: with a total evaluator the assignment returns
normally; with a failing evaluator the failure comes back as a caught
error, not a panic. -/
theorem assignPlaceholders_error_boundary_witness :
    (∃ m, AssignPlaceholders {} { root := some (SExpr.placeholder 0 Ty.int, 0) }
        (fun _ => Except.ok (Datum.dInt 5)) = AssignResult.ok m) ∧
    (∃ msg, assignRepl (fun _ => Except.error "boom")
        (SExpr.placeholder 0 Ty.int) = Except.error (PanicVal.evalError msg) ∧
      AssignPlaceholders {} { root := some (SExpr.placeholder 0 Ty.int, 0) }
        (fun _ => Except.error "boom") = AssignResult.caughtErr msg) :=
  ⟨(assignPlaceholders_error_boundary {}
      { root := some (SExpr.placeholder 0 Ty.int, 0) }
      (fun _ => Except.ok (Datum.dInt 5)) (SExpr.placeholder 0 Ty.int) 0 rfl rfl).1
      (by simp [allOkB]),
   (assignPlaceholders_error_boundary {}
      { root := some (SExpr.placeholder 0 Ty.int, 0) }
      (fun _ => Except.error "boom") (SExpr.placeholder 0 Ty.int) 0 rfl rfl).2.1
      (by simp [allOkB])⟩

/-- Claim C8: DisableOptimizationsTemporarily installs the reject-all
veto before running fn and, when fn returns normally, the match-veto
callback active before the call is in force again afterwards — for
every prior callback, including none and including a reject-all veto
installed by an enclosing temporary disable. -/
theorem disableOptimizationsTemporarily_restores (f : Factory)
    (fn : Factory → Factory × Option PanicVal)
    (hnormal : (fn (DisableOptimizations f)).2 = none) :
    (DisableOptimizationsTemporarily f fn).1.matchedRule = f.matchedRule ∧
    (DisableOptimizationsTemporarily f fn).2 = none ∧
    (DisableOptimizations f).matchedRule = some rejectAllVeto := by
  rcases hp : fn (DisableOptimizations f) with ⟨f2, o⟩
  have ho : o = none := by rw [hp] at hnormal; exact hnormal
  subst ho
  refine ⟨?_, ?_, rfl⟩
  · simp [DisableOptimizationsTemporarily, hp]
  · simp [DisableOptimizationsTemporarily, hp]

/-- Witness for C8: a previously installed allow-all callback is in
force again after a temporary disable around a function that returns
normally. -/
theorem disableOptimizationsTemporarily_restores_witness :
    (DisableOptimizationsTemporarily { matchedRule := some (fun _ => true) }
        (fun g => (g, none))).1.matchedRule = some (fun _ => true) ∧
    (DisableOptimizationsTemporarily { matchedRule := some (fun _ => true) }
        (fun g => (g, none))).2 = none :=
  ⟨(disableOptimizationsTemporarily_restores { matchedRule := some (fun _ => true) }
      (fun g => (g, none)) rfl).1,
   (disableOptimizationsTemporarily_restores { matchedRule := some (fun _ => true) }
      (fun g => (g, none)) rfl).2.1⟩

/-- Claim C10: if fn panics inside DisableOptimizationsTemporarily, the
saved callback is not restored — the call propagates fn's final state
unchanged, so when fn itself left the match-veto callback alone the
reject-all veto installed at the start is still the active callback
after the panic. -/
theorem disableOptimizationsTemporarily_panic_keeps_veto (f : Factory)
    (fn : Factory → Factory × Option PanicVal) (pv : PanicVal)
    (hpanic : (fn (DisableOptimizations f)).2 = some pv) :
    DisableOptimizationsTemporarily f fn = fn (DisableOptimizations f) ∧
    ((fn (DisableOptimizations f)).1.matchedRule =
        (DisableOptimizations f).matchedRule →
      (DisableOptimizationsTemporarily f fn).1.matchedRule = some rejectAllVeto) := by
  rcases hp : fn (DisableOptimizations f) with ⟨f2, o⟩
  have ho : o = some pv := by rw [hp] at hpanic; exact hpanic
  subst ho
  constructor
  · simp [DisableOptimizationsTemporarily, hp]
  · intro hpres
    have hm : (DisableOptimizationsTemporarily f fn).1 = f2 := by
      simp [DisableOptimizationsTemporarily, hp]
    rw [hm]
    exact hpres

/-- Witness for C10: after a panicking fn that did not itself touch the
callback, the reject-all veto is still installed. -/
theorem disableOptimizationsTemporarily_panic_keeps_veto_witness :
    (DisableOptimizationsTemporarily { matchedRule := none }
        (fun g => (g, some (PanicVal.evalError "boom")))).1.matchedRule =
      some rejectAllVeto :=
  (disableOptimizationsTemporarily_panic_keeps_veto { matchedRule := none }
      (fun g => (g, some (PanicVal.evalError "boom")))
      (PanicVal.evalError "boom") rfl).2 rfl

/-- Claim C9: ConstructConstFilter with a single value builds the
equality filter between the column variable and the canonical constant;
with more than one value it builds the IN filter against the tuple of
canonical constants whose element-type list is each value's resolved
type in order. -/
theorem constructConstFilter_eq_or_in :
    (∀ col v, ConstructConstFilter col [v] =
      SExpr.filtersItem (SExpr.eq (SExpr.varRef col)
        (ConstructConstVal v v.resolvedType))) ∧
    (∀ col (vs : List Datum), 1 < vs.length →
      ConstructConstFilter col vs =
        SExpr.filtersItem (SExpr.inOp (SExpr.varRef col)
          (SExpr.tuple (vs.map (fun v => ConstructConstVal v v.resolvedType))
            (Ty.tuple (vs.map Datum.resolvedType))))) := by
  constructor
  · intro col v
    rfl
  · intro col vs h
    cases vs with
    | nil => simp at h
    | cons v1 tail =>
      cases tail with
      | nil => simp at h
      | cons v2 rest => rfl

/-- Witness for C9: column 1 with value 5 yields the equality filter;
values 5, 7, 9 yield the IN filter over the three-element tuple. -/
theorem constructConstFilter_eq_or_in_witness :
    ConstructConstFilter 1 [Datum.dInt 5] =
      SExpr.filtersItem (SExpr.eq (SExpr.varRef 1)
        (ConstructConstVal (Datum.dInt 5) (Datum.dInt 5).resolvedType)) ∧
    ConstructConstFilter 1 [Datum.dInt 5, Datum.dInt 7, Datum.dInt 9] =
      SExpr.filtersItem (SExpr.inOp (SExpr.varRef 1)
        (SExpr.tuple ([Datum.dInt 5, Datum.dInt 7, Datum.dInt 9].map
            (fun v => ConstructConstVal v v.resolvedType))
          (Ty.tuple ([Datum.dInt 5, Datum.dInt 7, Datum.dInt 9].map
            Datum.resolvedType)))) :=
  ⟨constructConstFilter_eq_or_in.1 1 (Datum.dInt 5),
   constructConstFilter_eq_or_in.2 1 [Datum.dInt 5, Datum.dInt 7, Datum.dInt 9]
      (by decide)⟩
